import Mathlib

/-!
Verification of the PyPOTS data-preparation pipeline and training orchestrator.

This file gives a shallow embedding of:
* `pypots/imputation/brits/data.py` (`DatasetForBRITS`: eager precomputation,
  `_fetch_data_from_array`, `_fetch_data_from_file`);
* `pypots/imputation/usgan/model.py` (`USGAN._train_model`, `USGAN.fit`,
  `USGAN.predict`, `USGAN.impute`);
* `pypots/imputation/csdi/model.py` (`CSDI.predict`, `CSDI.impute`);
* `pypots/classification/brits/model.py` (`BRITS.predict`, `BRITS.classify`).

Matrices are embedded as functions `ℕ → ℕ → ℚ` (time index, feature index);
raw input values are `Option ℚ` with `none` playing the role of NaN.  Components
of the repository that are referenced from the analysed files but whose own
source is not part of the analysed material (`_parse_delta_torch` from
`pypots/data/utils.py`, `BaseNNImputer._auto_save_model_if_necessary` from
`pypots/base.py`) are modelled from the specification, as marked in their doc
comments.
-/

/-- A raw matrix entry as read from the backing store: `none` models NaN
(an unobserved value), `some v` an observed value `v`. -/
abbrev RawVal := Option ℚ

/-- Dense numeric matrix, indexed by (time step, feature). -/
abbrev Mat := ℕ → ℕ → ℚ

/-- Raw matrix (may contain NaN), indexed by (time step, feature). -/
abbrev RawMat := ℕ → ℕ → RawVal

/-- Embedding of `(~torch.isnan(X)).type(torch.float32)` on one entry:
1 when the value is observed, 0 when it is NaN. -/
def isObservedVal (v : RawVal) : ℚ := if v.isSome then 1 else 0

/-- Embedding of `torch.nan_to_num` on one entry: NaN becomes 0. -/
def nanToNumVal (v : RawVal) : ℚ := v.getD 0

/-- Modelled from the spec: `_parse_delta_torch` lives in `pypots/data/utils.py`,
which is not part of the analysed source; §4.1 (DeltaEncoder) of the spec gives
its defining recurrence, for each feature column `f` independently:
`delta[0,f] = 0`; for `t > 0`, `delta[t,f] = step_gap` when `mask[t-1,f] == 1`
and `delta[t,f] = step_gap + delta[t-1,f]` otherwise. -/
def deltaEncoder (step_gap : ℚ) (mask : Mat) : Mat
  | 0, _ => 0
  | t + 1, f => if mask t f = 1 then step_gap else step_gap + deltaEncoder step_gap mask t f

/-- The delta computation used by `DatasetForBRITS`: the spec fixes the step
gap of `_parse_delta_torch` at one time unit for regularly-sampled series. -/
def parse_delta_torch (mask : Mat) : Mat := deltaEncoder 1 mask

/-- Embedding of `torch.flip(A, dims=[0])` on a `[T, F]` matrix: reverse the
time axis of a sample with `n_steps = T`. -/
def flip2 (T : ℕ) (A : Mat) : Mat := fun t f => A (T - 1 - t) f

/-- Embedding of `torch.flip(A, dims=[1])` on an `[n_samples, T, F]` tensor:
reverse the time axis of every sample. -/
def flip3 (T : ℕ) (A : ℕ → Mat) : ℕ → Mat := fun i t f => A i (T - 1 - t) f

/-- Per-sample application of `_parse_delta_torch` to a batched
`[n_samples, T, F]` mask (the torch function computes deltas for each sample
of the batch independently). -/
def parse_delta_torch3 (mask : ℕ → Mat) : ℕ → Mat := fun i => parse_delta_torch (mask i)

/-- One direction (forward or backward) of the precomputed `processed_data`
of `DatasetForBRITS.__init__`, holding batched `[n_samples, T, F]` arrays. -/
structure Dir3 where
  X : ℕ → Mat
  missing_mask : ℕ → Mat
  delta : ℕ → Mat

/-- Embedding of the eager branch of `DatasetForBRITS.__init__`
(`src/pypots/imputation/brits/data.py`, lines 51-71): from the raw batched
input `X3` (entries `none` = NaN), compute the forward mask, the NaN-filled
forward values, the forward deltas, then flip `X` and the mask along the time
axis (`dims=[1]`) and recompute the backward deltas from the flipped mask. -/
def DatasetForBRITS_processed_data (T : ℕ) (X3 : ℕ → RawMat) : Dir3 × Dir3 :=
  let forward_missing_mask : ℕ → Mat := fun i t f => isObservedVal (X3 i t f)
  let forward_X : ℕ → Mat := fun i t f => nanToNumVal (X3 i t f)
  let forward_delta : ℕ → Mat := parse_delta_torch3 forward_missing_mask
  let backward_X : ℕ → Mat := flip3 T forward_X
  let backward_missing_mask : ℕ → Mat := flip3 T forward_missing_mask
  let backward_delta : ℕ → Mat := parse_delta_torch3 backward_missing_mask
  (⟨forward_X, forward_missing_mask, forward_delta⟩,
   ⟨backward_X, backward_missing_mask, backward_delta⟩)

/-- The sample returned by `DatasetForBRITS.__getitem__`: the index, the seven
array components (forward and backward X / missing mask / delta), and the
optional label (`none` when the label element is omitted from the returned
list, `some l` when the label `l` is appended as a long integer). -/
structure Sample where
  index : ℕ
  forwardX : Mat
  forwardMask : Mat
  forwardDelta : Mat
  backwardX : Mat
  backwardMask : Mat
  backwardDelta : Mat
  label : Option ℤ

/-- Embedding of `DatasetForBRITS._fetch_data_from_array`: slice the eagerly
precomputed `processed_data` at `idx`; append the label only when labels exist
(`y` is `some`) and `return_labels` is set. -/
def fetch_data_from_array (T : ℕ) (X3 : ℕ → RawMat) (y : Option (ℕ → ℤ))
    (return_labels : Bool) (idx : ℕ) : Sample :=
  let pd := DatasetForBRITS_processed_data T X3
  { index := idx
    forwardX := pd.1.X idx
    forwardMask := pd.1.missing_mask idx
    forwardDelta := pd.1.delta idx
    backwardX := pd.2.X idx
    backwardMask := pd.2.missing_mask idx
    backwardDelta := pd.2.delta idx
    label := match y, return_labels with
      | some ys, true => some (ys idx)
      | _, _ => none }

/-- Embedding of `DatasetForBRITS._fetch_data_from_file`: read the raw slice
`X3 idx` from the file handle, compute mask and NaN-filled values, compute the
forward deltas, flip along the time axis (`dims=[0]` of the `[T, F]` slice) and
recompute the backward deltas; append the label only when the store has a `y`
key and `return_labels` is set. -/
def fetch_data_from_file (T : ℕ) (X3 : ℕ → RawMat) (y : Option (ℕ → ℤ))
    (return_labels : Bool) (idx : ℕ) : Sample :=
  let X0 : RawMat := X3 idx
  let missing_mask : Mat := fun t f => isObservedVal (X0 t f)
  let X : Mat := fun t f => nanToNumVal (X0 t f)
  let forward_deltas : Mat := parse_delta_torch missing_mask
  let backward_X : Mat := flip2 T X
  let backward_missing_mask : Mat := flip2 T missing_mask
  let backward_deltas : Mat := parse_delta_torch backward_missing_mask
  { index := idx
    forwardX := X
    forwardMask := missing_mask
    forwardDelta := forward_deltas
    backwardX := backward_X
    backwardMask := backward_missing_mask
    backwardDelta := backward_deltas
    label := match y, return_labels with
      | some ys, true => some (ys idx)
      | _, _ => none }

/-- A one-feature, five-step raw input whose missingness mask is the irregular
gap pattern `[1,0,0,1,0]` named by the spec's backward-delta property. -/
def britsGapExampleX : ℕ → RawMat :=
  fun _ t _ => if t = 0 ∨ t = 3 then some 1 else none

example : parse_delta_torch (fun t f => isObservedVal (britsGapExampleX 0 t f)) 4 0 = 1 := by
  decide

example :
    (DatasetForBRITS_processed_data 5 britsGapExampleX).2.delta 0 0 0 = 0 := by decide

/-! ## Training orchestrator: `USGAN._train_model`, `USGAN.fit`
(`src/pypots/imputation/usgan/model.py`, lines 197-346)

The per-epoch mean generator loss (`mean_loss = mean_epoch_train_G_loss`) and
the model parameter state after each epoch are the results of the opaque
network/optimizer collaborators; they enter the embedding as the oracles
`loss : ℕ → ℚ` and `modelState : ℕ → σ` indexed by the epoch number.  An
exception raised while running epoch `e` (the only cancellation path, spec §5)
is injected through the oracle `fault : ℕ → Bool`. -/

/-- Name of a checkpoint written during training:
`f"{self.__class__.__name__}_epoch{epoch}_loss{mean_loss}"` encodes the class
name, the epoch index and the loss value. -/
structure SaveName where
  cls : String
  epoch : ℕ
  lossVal : ℚ
deriving DecidableEq

/-- One call to `_auto_save_model_if_necessary`: the `training_finished` flag,
the optional explicit `saving_name` (`none` means the default class name), and
the live model state at the moment of the call. -/
structure SaveCall (σ : Type) where
  training_finished : Bool
  saving_name : Option SaveName
  savedState : Option σ
deriving DecidableEq

/-- The mutable training state of `USGAN._train_model`: `best_loss`
(initialised to the `+∞` sentinel `⊤`, embedding `float("inf")`),
`best_model_dict` (the snapshot, `none` embedding Python `None`), and the
remaining `patience`. -/
structure TrainState (σ : Type) where
  best_loss : WithTop ℚ
  best_model_dict : Option σ
  patience : ℤ
deriving DecidableEq

/-- How the `for epoch in range(self.epochs)` loop ended: all epochs ran
(`completed`), the `break` upon exhausted patience fired while running epoch
`e` (`patienceBreak e`), or an exception was raised inside epoch `e`
(`faulted e`). -/
inductive LoopExit where
  | completed
  | patienceBreak (e : ℕ)
  | faulted (e : ℕ)
deriving DecidableEq

/-- Result of the epoch loop: final training state, how the loop exited, and
the `_auto_save_model_if_necessary` calls issued (one per improving epoch). -/
structure LoopResult (σ : Type) where
  st : TrainState σ
  exit : LoopExit
  saves : List (SaveCall σ)
deriving DecidableEq

/-- Embedding of the epoch loop of `USGAN._train_model` (lines 210-282),
running epochs `e, e+1, ...` while `rem` epochs remain.  Each epoch: if the
fault oracle fires, the loop is torn down by the exception; otherwise the
epoch's decision loss `loss e` is compared strictly against `best_loss` —
improvement stores the loss, snapshots the model state, resets the remaining
patience to `original_patience` and issues a checkpoint call with
`training_finished=False` and the `{class}_epoch{e}_loss{loss}` name;
no improvement decrements the patience and `break`s when it reaches zero. -/
def runEpochsFrom {σ : Type} (P : ℤ) (loss : ℕ → ℚ) (modelState : ℕ → σ)
    (cls : String) (fault : ℕ → Bool) : ℕ → ℕ → TrainState σ → LoopResult σ
  | _, 0, s => ⟨s, .completed, []⟩
  | e, rem + 1, s =>
    if fault e then ⟨s, .faulted e, []⟩
    else if (loss e : WithTop ℚ) < s.best_loss then
      let r := runEpochsFrom P loss modelState cls fault (e + 1) rem
        ⟨(loss e : WithTop ℚ), some (modelState e), P⟩
      ⟨r.st, r.exit, ⟨false, some ⟨cls, e, loss e⟩, some (modelState e)⟩ :: r.saves⟩
    else if s.patience - 1 = 0 then
      ⟨⟨s.best_loss, s.best_model_dict, s.patience - 1⟩, .patienceBreak e, []⟩
    else
      runEpochsFrom P loss modelState cls fault (e + 1) rem
        ⟨s.best_loss, s.best_model_dict, s.patience - 1⟩

/-- What `_train_model` leaves behind when it returns without raising:
the final training state, the loop exit, the checkpoint calls issued during
the loop, whether the except-branch ran `logger.error` (it does so on every
caught exception), and the warnings actually raised to the caller.  The
except-branch of lines 289-294 only constructs `RuntimeWarning(...)` as an
expression whose value is discarded — it neither raises it nor routes it
through `warnings.warn` — so `warningsRaised` is `[]` on every path. -/
structure TrainReport (σ : Type) where
  st : TrainState σ
  exit : LoopExit
  saves : List (SaveCall σ)
  exceptionLogged : Bool
  warningsRaised : List String
deriving DecidableEq

/-- Outcome of `USGAN._train_model`: the `RuntimeError` raised when an
exception interrupts training before any snapshot exists, the `ValueError`
raised when `best_loss` is still `+∞` after the loop, or a normal return. -/
inductive TrainOutcome (σ : Type) where
  | runtimeError
  | valueError
  | ok (rep : TrainReport σ)
deriving DecidableEq

/-- Embedding of `USGAN._train_model` (lines 197-299).  `val_loss` embeds the
`val_loader` parameter: it is received but never read by the body — the
decision loss is always the mean training generator loss `loss e`.  After the
loop (or after the except-branch when the loop was interrupted and a snapshot
exists), `np.equal(self.best_loss, float("inf"))` raises `ValueError`. -/
def train_model {σ : Type} (epochs : ℕ) (P : ℤ) (loss : ℕ → ℚ) (modelState : ℕ → σ)
    (cls : String) (fault : ℕ → Bool) (_val_loss : Option (ℕ → ℚ)) : TrainOutcome σ :=
  let r := runEpochsFrom P loss modelState cls fault 0 epochs ⟨⊤, none, P⟩
  match r.exit with
  | .faulted _ =>
    if r.st.best_model_dict.isNone then .runtimeError
    else
      -- `RuntimeWarning(...)` is evaluated and its value discarded: nothing raised
      if r.st.best_loss = ⊤ then .valueError
      else .ok ⟨r.st, r.exit, r.saves, true, []⟩
  | _ =>
    if r.st.best_loss = ⊤ then .valueError
    else .ok ⟨r.st, r.exit, r.saves, false, []⟩

/-- The `model_saving_strategy` values `None`, `"best"`, `"better"`. -/
inductive SavingStrategy where
  | noSave
  | best
  | better
deriving DecidableEq

/-- Modelled from the spec: `_auto_save_model_if_necessary` lives in
`pypots/base.py`, which is not part of the analysed source.  Spec §4.6: no
write when no saving path is configured; `none` → no-op always; `best` →
writes only when `training_finished` is true; `better` → writes on every
improving epoch, i.e. on the calls issued from inside the loop with
`training_finished=False` (§8 fixes that the final `training_finished=True`
call of `fit` writes nothing under `better`: the improving-then-flat length-5
run writes exactly 3 records under `better`). -/
def auto_save_model_if_necessary {σ : Type} (strategy : SavingStrategy)
    (path_given : Bool) (call : SaveCall σ) : Bool :=
  path_given &&
    (match strategy with
     | .noSave => false
     | .best => call.training_finished
     | .better => !call.training_finished)

/-- The checkpoint records actually written for a sequence of
`_auto_save_model_if_necessary` calls under a strategy. -/
def writtenCheckpoints {σ : Type} (strategy : SavingStrategy) (path_given : Bool)
    (calls : List (SaveCall σ)) : List (SaveCall σ) :=
  calls.filter (auto_save_model_if_necessary strategy path_given)

/-- What `USGAN.fit` leaves behind on normal return: the state loaded into the
live model (`self.model.load_state_dict(self.best_model_dict)`), every
`_auto_save_model_if_necessary` call of the run in order, and the warnings
raised to the caller. -/
structure FitReport (σ : Type) where
  loadedModel : Option σ
  calls : List (SaveCall σ)
  exceptionLogged : Bool
  warningsRaised : List String
deriving DecidableEq

/-- Outcome of `USGAN.fit`. -/
inductive FitOutcome (σ : Type) where
  | runtimeError
  | valueError
  | ok (fr : FitReport σ)
deriving DecidableEq

/-- Embedding of `USGAN.fit` (lines 301-346): train, load the best snapshot
into the model, freeze it, then issue the final
`_auto_save_model_if_necessary(training_finished=True)` call (default saving
name, live model now holding the best snapshot). -/
def USGAN_fit {σ : Type} (epochs : ℕ) (P : ℤ) (loss : ℕ → ℚ) (modelState : ℕ → σ)
    (cls : String) (fault : ℕ → Bool) (val_loss : Option (ℕ → ℚ)) : FitOutcome σ :=
  match train_model epochs P loss modelState cls fault val_loss with
  | .runtimeError => .runtimeError
  | .valueError => .valueError
  | .ok rep =>
    .ok ⟨rep.st.best_model_dict,
         rep.saves ++ [⟨true, none, rep.st.best_model_dict⟩],
         rep.exceptionLogged, rep.warningsRaised⟩

example :
    train_model 3 2 (fun e => if e = 0 then (10 : ℚ) else if e = 1 then 9 else 8)
      (fun e => e) "USGAN" (fun _ => false) none =
      .ok ⟨⟨((8 : ℚ) : WithTop ℚ), some 2, 2⟩, .completed,
        [⟨false, some ⟨"USGAN", 0, 10⟩, some 0⟩,
         ⟨false, some ⟨"USGAN", 1, 9⟩, some 1⟩,
         ⟨false, some ⟨"USGAN", 2, 8⟩, some 2⟩], false, []⟩ := by
  decide

example :
    train_model 0 2 (fun _ => (10 : ℚ)) (fun e => e) "USGAN" (fun _ => false) none =
      (.valueError : TrainOutcome ℕ) := by decide

/-! ## Inference: `predict` and the deprecated `impute` / `classify`

`predict` runs the frozen model over the ordered test batches under
`torch.no_grad()`, concatenates the per-batch outputs with `torch.cat`, and
returns a one-key result dictionary.  The network forward pass is the opaque
collaborator `net` mapping a batch to its list of per-sample output arrays.
Each embedded method returns the list of warnings it logs (in order) together
with its value; `predict` logs none, the deprecated wrappers log exactly the
deprecation warning before delegating. -/

/-- The deprecation warning logged by the deprecated `impute` methods. -/
def imputeDeprecationMsg : String :=
  "DeprecationWarning: The method impute is deprecated. Please use predict instead."

/-- The deprecation warning logged by the deprecated `classify` method. -/
def classifyDeprecationMsg : String :=
  "DeprecationWarning: The method classify is deprecated. Please use predict instead."

/-- Embedding of `USGAN.predict` (`src/pypots/imputation/usgan/model.py`,
lines 348-374): collect `results["imputed_data"]` per batch, concatenate, and
return `{"imputation": imputation}`. -/
def USGAN_predict {α β : Type} (net : α → List β) (testBatches : List α) :
    List String × List (String × List β) :=
  ([], [("imputation", (testBatches.map net).flatten)])

/-- Embedding of `USGAN.impute` (lines 376-385): log the deprecation warning,
call `predict`, return `results_dict["imputation"]`. -/
def USGAN_impute {α β : Type} (net : α → List β) (testBatches : List α) :
    List String × Option (List β) :=
  let p := USGAN_predict net testBatches
  (imputeDeprecationMsg :: p.1, p.2.lookup "imputation")

/-- Embedding of `CSDI.predict` (`src/pypots/imputation/csdi/model.py`): the
network takes the `n_sampling_times` argument (default 1); per-batch
`results["imputed_data"]` are concatenated into `{"imputation": imputation}`. -/
def CSDI_predict {α β : Type} (net : ℕ → α → List β) (testBatches : List α)
    (n_sampling_times : ℕ) : List String × List (String × List β) :=
  ([], [("imputation", (testBatches.map (net n_sampling_times)).flatten)])

/-- Embedding of `CSDI.impute` (lines 304-313): log the deprecation warning,
call `self.predict(X, file_type=file_type)` — `n_sampling_times` is left at
its default of 1 — and return `results_dict["imputation"]`. -/
def CSDI_impute {α β : Type} (net : ℕ → α → List β) (testBatches : List α) :
    List String × Option (List β) :=
  let p := CSDI_predict net testBatches 1
  (imputeDeprecationMsg :: p.1, p.2.lookup "imputation")

/-- Embedding of `BRITS.predict` (`src/pypots/classification/brits/model.py`,
lines 245-271): collect `results["classification_pred"]` per batch,
concatenate, and return `{"classification": classification}`. -/
def BRITS_predict {α β : Type} (net : α → List β) (testBatches : List α) :
    List String × List (String × List β) :=
  ([], [("classification", (testBatches.map net).flatten)])

/-- Embedding of `BRITS.classify` (lines 273-282): log the deprecation
warning, call `predict`, return `result_dict["classification"]`. -/
def BRITS_classify {α β : Type} (net : α → List β) (testBatches : List α) :
    List String × Option (List β) :=
  let p := BRITS_predict net testBatches
  (classifyDeprecationMsg :: p.1, p.2.lookup "classification")

/-! ## Helper lemmas about the epoch loop -/

section LoopLemmas

variable {σ : Type} (P : ℤ) (loss : ℕ → ℚ) (ms : ℕ → σ) (cls : String) (fault : ℕ → Bool)

/-- Unfolding one improving epoch of the loop. -/
lemma runEpochsFrom_succ_improve (e rem : ℕ) (s : TrainState σ)
    (hf : fault e = false) (h : (loss e : WithTop ℚ) < s.best_loss) :
    runEpochsFrom P loss ms cls fault e (rem + 1) s =
      ⟨(runEpochsFrom P loss ms cls fault (e + 1) rem
          ⟨(loss e : WithTop ℚ), some (ms e), P⟩).st,
       (runEpochsFrom P loss ms cls fault (e + 1) rem
          ⟨(loss e : WithTop ℚ), some (ms e), P⟩).exit,
       ⟨false, some ⟨cls, e, loss e⟩, some (ms e)⟩ ::
         (runEpochsFrom P loss ms cls fault (e + 1) rem
            ⟨(loss e : WithTop ℚ), some (ms e), P⟩).saves⟩ := by
  rw [runEpochsFrom]
  simp [hf, h]

/-- A run over consecutive epochs none of which improves on `s.best_loss`,
starting with `p'` remaining patience and at least `p'` epochs left, breaks
out of the loop at exactly the `p'`-th of those epochs, leaving the best loss
and snapshot untouched and the patience at zero. -/
lemma runEpochsFrom_flat (p' : ℕ) :
    ∀ (a k : ℕ) (s : TrainState σ), 0 < p' → s.patience = (p' : ℤ) → p' ≤ k →
      (∀ e, a ≤ e → fault e = false) →
      (∀ e, a ≤ e → ¬((loss e : WithTop ℚ) < s.best_loss)) →
      runEpochsFrom P loss ms cls fault a k s =
        ⟨⟨s.best_loss, s.best_model_dict, 0⟩, .patienceBreak (a + p' - 1), []⟩ := by
  induction p' with
  | zero => intro a k s hp; exact absurd hp (lt_irrefl 0)
  | succ q ih =>
    intro a k s _ hs hk hf hb
    obtain ⟨k', rfl⟩ : ∃ k', k = k' + 1 := ⟨k - 1, by omega⟩
    rw [runEpochsFrom]
    rw [hf a le_rfl]
    simp only [Bool.false_eq_true, if_false]
    rw [if_neg (hb a le_rfl)]
    rcases Nat.eq_zero_or_pos q with hq | hq
    · subst hq
      have hpat : s.patience - 1 = 0 := by rw [hs]; simp
      rw [if_pos hpat]
      have ha : a + 1 - 1 = a := by omega
      simp [hpat, ha]
    · have hpat : s.patience - 1 ≠ 0 := by
        rw [hs]; push_cast; omega
      rw [if_neg hpat]
      have hpat' : (⟨s.best_loss, s.best_model_dict, s.patience - 1⟩ : TrainState σ).patience
          = (q : ℤ) := by
        simp only [hs]; push_cast; ring
      have := ih (a + 1) k' ⟨s.best_loss, s.best_model_dict, s.patience - 1⟩ hq hpat'
        (by omega) (fun e he => hf e (by omega)) (fun e he => hb e (by omega))
      rw [this]
      have harith : a + 1 + q - 1 = a + (q + 1) - 1 := by omega
      rw [harith]

/-- Every checkpoint call issued from inside the loop carries
`training_finished = False`, the `{class}_epoch{e}_loss{loss e}` saving name
of some epoch `e`, and the model state of that epoch. -/
lemma runEpochsFrom_saves_shape :
    ∀ (k a : ℕ) (s : TrainState σ) (c : SaveCall σ),
      c ∈ (runEpochsFrom P loss ms cls fault a k s).saves →
      ∃ e, c = ⟨false, some ⟨cls, e, loss e⟩, some (ms e)⟩ := by
  intro k
  induction k with
  | zero =>
    intro a s c hc
    simp [runEpochsFrom] at hc
  | succ k' ih =>
    intro a s c hc
    rw [runEpochsFrom] at hc
    by_cases hfa : fault a = true
    · simp [hfa] at hc
    · rw [if_neg hfa] at hc
      by_cases himp : (loss a : WithTop ℚ) < s.best_loss
      · rw [if_pos himp] at hc
        simp only [List.mem_cons] at hc
        rcases hc with h | h
        · exact ⟨a, h⟩
        · exact ih (a + 1) _ c h
      · rw [if_neg himp] at hc
        by_cases hpat : s.patience - 1 = 0
        · rw [if_pos hpat] at hc
          simp at hc
        · rw [if_neg hpat] at hc
          exact ih (a + 1) _ c hc

end LoopLemmas

/-- Deltas are nonnegative whenever the step gap is. -/
lemma deltaEncoder_nonneg (g : ℚ) (mask : Mat) (hg : 0 ≤ g) :
    ∀ t f, 0 ≤ deltaEncoder g mask t f := by
  intro t f
  induction t with
  | zero => simp [deltaEncoder]
  | succ n ihn =>
    rw [deltaEncoder]
    split
    · exact hg
    · exact add_nonneg hg ihn

/-- A concrete loss trace: strictly improving at epochs 0-2 (values 10, 9, 8)
and flat at 8 from epoch 2 onwards. -/
def lossW : ℕ → ℚ := fun e => if e = 0 then 10 else if e = 1 then 9 else 8

/-- A concrete loss trace improving at epochs 0, 1, 2 (values 5, 4, 3) and
flat at 3 afterwards. -/
def loss543 : ℕ → ℚ := fun e => if e = 0 then 5 else if e = 1 then 4 else 3

/-- Inversion: a normal return of `_train_model` reports exactly the loop's
final state, exit, and checkpoint calls, and raises no warning. -/
lemma train_model_ok_inv {σ : Type} (epochs : ℕ) (P : ℤ) (loss : ℕ → ℚ)
    (ms : ℕ → σ) (cls : String) (fault : ℕ → Bool) (vl : Option (ℕ → ℚ))
    (rep : TrainReport σ)
    (h : train_model epochs P loss ms cls fault vl = .ok rep) :
    rep.st = (runEpochsFrom P loss ms cls fault 0 epochs ⟨⊤, none, P⟩).st ∧
    rep.exit = (runEpochsFrom P loss ms cls fault 0 epochs ⟨⊤, none, P⟩).exit ∧
    rep.saves = (runEpochsFrom P loss ms cls fault 0 epochs ⟨⊤, none, P⟩).saves ∧
    rep.warningsRaised = [] := by
  simp only [train_model] at h
  split at h
  · split at h
    · exact absurd h (by simp)
    · split at h
      · exact absurd h (by simp)
      · injection h with h'
        rw [← h']
        exact ⟨rfl, rfl, rfl, rfl⟩
  · split at h
    · exact absurd h (by simp)
    · injection h with h'
      rw [← h']
      exact ⟨rfl, rfl, rfl, rfl⟩

/-! ## Claim theorems -/

/-- C1: for every input, the bidirectional view built by
`DatasetForBRITS.__init__` has `backward.X` and `backward.missing_mask` equal
to the time-reversed forward `X` and mask, and `backward.delta` equal to
`_parse_delta_torch` applied afresh to the reversed mask; and for the
irregular gap mask `[1,0,0,1,0]`, `backward.delta` differs from the
time-reversal of `forward.delta` (at `t = 0` the former is `0`, the latter
`1`). -/
theorem brits_backward_recomputed_not_reflected :
    (∀ (T : ℕ) (X3 : ℕ → RawMat),
      (DatasetForBRITS_processed_data T X3).2.X =
        flip3 T (DatasetForBRITS_processed_data T X3).1.X ∧
      (DatasetForBRITS_processed_data T X3).2.missing_mask =
        flip3 T (DatasetForBRITS_processed_data T X3).1.missing_mask ∧
      (DatasetForBRITS_processed_data T X3).2.delta =
        parse_delta_torch3 (flip3 T (DatasetForBRITS_processed_data T X3).1.missing_mask)) ∧
    (DatasetForBRITS_processed_data 5 britsGapExampleX).2.delta 0 0 0 ≠
      flip3 5 (DatasetForBRITS_processed_data 5 britsGapExampleX).1.delta 0 0 0 :=
  ⟨fun _ _ => ⟨rfl, rfl, rfl⟩, by decide⟩

/-- C2: the delta encoding satisfies `delta[0,f] = 0`,
`delta[t,f] = step_gap` when `mask[t-1,f] == 1` and
`delta[t,f] = step_gap + delta[t-1,f]` otherwise; consequently row 0 is all
zeros and every later row is bounded below by `step_gap`. -/
theorem deltaEncoder_recurrence_and_lower_bound (g : ℚ) (mask : Mat) (hg : 0 ≤ g) :
    (∀ f, deltaEncoder g mask 0 f = 0) ∧
    (∀ t f, deltaEncoder g mask (t + 1) f =
      if mask t f = 1 then g else g + deltaEncoder g mask t f) ∧
    (∀ t f, 0 < t → g ≤ deltaEncoder g mask t f) := by
  refine ⟨fun _ => rfl, fun _ _ => rfl, ?_⟩
  intro t f ht
  obtain ⟨n, rfl⟩ : ∃ n, t = n + 1 := ⟨t - 1, by omega⟩
  rw [deltaEncoder]
  split
  · exact le_refl g
  · exact le_add_of_nonneg_right (deltaEncoder_nonneg g mask hg n f)

/-- Witness for C2 at `step_gap = 1` and the `[1,0,0,1,0]` mask. -/
theorem deltaEncoder_recurrence_and_lower_bound_witness :
    (0 : ℚ) ≤ 1 ∧
    (1 : ℚ) ≤ deltaEncoder 1 (fun t f => isObservedVal (britsGapExampleX 0 t f)) 2 0 :=
  ⟨by norm_num,
   (deltaEncoder_recurrence_and_lower_bound 1
      (fun t f => isObservedVal (britsGapExampleX 0 t f)) (by norm_num)).2.2 2 0 (by omega)⟩

/-- C6: for the same backing arrays and index, the eager fetch
(`_fetch_data_from_array`) and the lazy fetch (`_fetch_data_from_file`)
return identical samples: same index, forward X / mask / delta, backward
X / mask / delta, and the same label handling. -/
theorem eager_lazy_fetch_equivalence :
    ∀ (T : ℕ) (X3 : ℕ → RawMat) (y : Option (ℕ → ℤ)) (rl : Bool) (idx : ℕ),
      fetch_data_from_array T X3 y rl idx = fetch_data_from_file T X3 y rl idx :=
  fun _ _ _ _ _ => rfl

/-- C9: with `return_labels = False` the fetched sample carries no label even
when labels are present in the backing data, and the seven array components
are exactly those of the `return_labels = True` sample; with
`return_labels = True` and labels present, the label is returned (as a long
integer). -/
theorem return_labels_flag_controls_label :
    ∀ (T : ℕ) (X3 : ℕ → RawMat) (ys : ℕ → ℤ) (y : Option (ℕ → ℤ)) (idx : ℕ),
      (fetch_data_from_array T X3 (some ys) false idx).label = none ∧
      (fetch_data_from_array T X3 (some ys) true idx).label = some (ys idx) ∧
      (fetch_data_from_file T X3 (some ys) false idx).label = none ∧
      (fetch_data_from_file T X3 (some ys) true idx).label = some (ys idx) ∧
      fetch_data_from_array T X3 y false idx =
        { fetch_data_from_array T X3 y true idx with label := none } ∧
      fetch_data_from_file T X3 y false idx =
        { fetch_data_from_file T X3 y true idx with label := none } := by
  intro T X3 ys y idx
  refine ⟨rfl, rfl, rfl, rfl, ?_, ?_⟩ <;> cases y <;> rfl

/-- C3: strict improvement resets the remaining patience and snapshots the
model state; a non-improving epoch decrements it, and at zero training halts
before the configured epoch count: for a loss trace strictly improving at
epochs 0-2 then flat, training halts exactly at epoch `2 + patience` with the
best snapshot equal to the epoch-2 state (and the best loss equal to the
epoch-2 loss). -/
theorem usgan_early_stopping {σ : Type} (p epochs : ℕ) (loss : ℕ → ℚ) (ms : ℕ → σ)
    (cls : String) (vl : Option (ℕ → ℚ)) (hp : 0 < p) (he : 2 + p < epochs)
    (h01 : loss 1 < loss 0) (h12 : loss 2 < loss 1)
    (hflat : ∀ e, 3 ≤ e → loss e = loss 2) :
    train_model epochs (p : ℤ) loss ms cls (fun _ => false) vl =
      .ok ⟨⟨(loss 2 : WithTop ℚ), some (ms 2), 0⟩, .patienceBreak (2 + p),
        [⟨false, some ⟨cls, 0, loss 0⟩, some (ms 0)⟩,
         ⟨false, some ⟨cls, 1, loss 1⟩, some (ms 1)⟩,
         ⟨false, some ⟨cls, 2, loss 2⟩, some (ms 2)⟩],
        false, []⟩ := by
  obtain ⟨m, rfl⟩ : ∃ m, epochs = m + 1 + 1 + 1 := ⟨epochs - 3, by omega⟩
  have h0 : ((loss 0 : ℚ) : WithTop ℚ) < (⊤ : WithTop ℚ) := WithTop.coe_lt_top _
  have h1 : ((loss 1 : ℚ) : WithTop ℚ) < ((loss 0 : ℚ) : WithTop ℚ) :=
    WithTop.coe_lt_coe.mpr h01
  have h2 : ((loss 2 : ℚ) : WithTop ℚ) < ((loss 1 : ℚ) : WithTop ℚ) :=
    WithTop.coe_lt_coe.mpr h12
  have hrun : runEpochsFrom (p : ℤ) loss ms cls (fun _ => false) 0 (m + 1 + 1 + 1)
      ⟨⊤, none, (p : ℤ)⟩ =
      ⟨⟨(loss 2 : WithTop ℚ), some (ms 2), 0⟩, .patienceBreak (2 + p),
       [⟨false, some ⟨cls, 0, loss 0⟩, some (ms 0)⟩,
        ⟨false, some ⟨cls, 1, loss 1⟩, some (ms 1)⟩,
        ⟨false, some ⟨cls, 2, loss 2⟩, some (ms 2)⟩]⟩ := by
    rw [runEpochsFrom_succ_improve (p : ℤ) loss ms cls (fun _ => false) 0 (m + 1 + 1)
      ⟨⊤, none, (p : ℤ)⟩ rfl h0]
    rw [runEpochsFrom_succ_improve (p : ℤ) loss ms cls (fun _ => false) 1 (m + 1)
      ⟨(loss 0 : WithTop ℚ), some (ms 0), (p : ℤ)⟩ rfl h1]
    rw [runEpochsFrom_succ_improve (p : ℤ) loss ms cls (fun _ => false) 2 m
      ⟨(loss 1 : WithTop ℚ), some (ms 1), (p : ℤ)⟩ rfl h2]
    have hflat' : ∀ e, 3 ≤ e →
        ¬((loss e : WithTop ℚ) <
          (⟨(loss 2 : WithTop ℚ), some (ms 2), (p : ℤ)⟩ : TrainState σ).best_loss) := by
      intro e he'
      have : (loss e : WithTop ℚ) = ((loss 2 : ℚ) : WithTop ℚ) := by rw [hflat e he']
      rw [this]
      exact lt_irrefl _
    rw [runEpochsFrom_flat (p : ℤ) loss ms cls (fun _ => false) p 3 m
      ⟨(loss 2 : WithTop ℚ), some (ms 2), (p : ℤ)⟩ hp rfl (by omega)
      (fun _ _ => rfl) hflat']
    have harith : 3 + p - 1 = 2 + p := by omega
    rw [harith]
  simp only [train_model, hrun]
  rw [if_neg (WithTop.coe_ne_top)]

/-- Witness for C3: patience 2, ten configured epochs, losses 10, 9, 8 then
flat; the run halts at epoch 4 with the epoch-2 snapshot. -/
theorem usgan_early_stopping_witness :
    train_model 10 ((2 : ℕ) : ℤ) lossW (fun e : ℕ => e) "USGAN" (fun _ => false) none =
      .ok ⟨⟨(lossW 2 : WithTop ℚ), some 2, 0⟩, .patienceBreak (2 + 2),
        [⟨false, some ⟨"USGAN", 0, lossW 0⟩, some 0⟩,
         ⟨false, some ⟨"USGAN", 1, lossW 1⟩, some 1⟩,
         ⟨false, some ⟨"USGAN", 2, lossW 2⟩, some 2⟩],
        false, []⟩ :=
  usgan_early_stopping 2 10 lossW (fun e : ℕ => e) "USGAN" none (by decide) (by decide)
    (by decide) (by decide)
    (fun e he => by simp [lossW, show e ≠ 0 by omega, show e ≠ 1 by omega])

/-- C4 (code bug): the fatal half of the claim holds — an exception before
any improving epoch makes `_train_model` (and `fit`) raise `RuntimeError` and
return no model — and with a snapshot populated `fit` does return normally
using the last good snapshot; but the recovery is silent: the except-branch
merely constructs `RuntimeWarning(...)` without raising it or passing it to
`warnings.warn`, so `warningsRaised` is empty (only the generic
`logger.error` of the exception, emitted on both paths, occurs).  Evaluated
at losses 10, 9, 8, ... with a fault injected at epoch 2 (after two improving
epochs) and at epoch 0 (before any). -/
theorem usgan_interrupt_recovery_is_silent :
    (train_model 5 5 lossW (fun e : ℕ => e) "USGAN" (fun e => e == 2) none =
      .ok ⟨⟨(lossW 1 : WithTop ℚ), some 1, 5⟩, .faulted 2,
        [⟨false, some ⟨"USGAN", 0, lossW 0⟩, some 0⟩,
         ⟨false, some ⟨"USGAN", 1, lossW 1⟩, some 1⟩],
        true, []⟩) ∧
    (USGAN_fit 5 5 lossW (fun e : ℕ => e) "USGAN" (fun e => e == 2) none =
      .ok ⟨some 1,
        [⟨false, some ⟨"USGAN", 0, lossW 0⟩, some 0⟩,
         ⟨false, some ⟨"USGAN", 1, lossW 1⟩, some 1⟩,
         ⟨true, none, some 1⟩],
        true, []⟩) ∧
    (train_model 5 5 lossW (fun e : ℕ => e) "USGAN" (fun e => e == 0) none =
      (.runtimeError : TrainOutcome ℕ)) ∧
    (USGAN_fit 5 5 lossW (fun e : ℕ => e) "USGAN" (fun e => e == 0) none =
      (.runtimeError : FitOutcome ℕ)) := by
  refine ⟨by decide, by decide, by decide, by decide⟩

/-- C5 (code bug): the decision loss of `USGAN._train_model` is always the
mean training generator loss — the received validation loader is never read,
so the whole training result is invariant under changing or dropping it; at
the concrete run with one epoch, training loss 5 and validation loss 7, the
best loss tracked is 5 (the training loss), not the supplied validation
loss 7. -/
theorem usgan_val_loader_ignored :
    (∀ (σ : Type) (epochs : ℕ) (P : ℤ) (loss : ℕ → ℚ) (ms : ℕ → σ) (cls : String)
       (fault : ℕ → Bool) (v : ℕ → ℚ),
       train_model epochs P loss ms cls fault (some v) =
         train_model epochs P loss ms cls fault none) ∧
    (train_model 1 1 (fun _ => (5 : ℚ)) (fun e : ℕ => e) "USGAN" (fun _ => false)
        (some (fun _ => (7 : ℚ))) =
      .ok ⟨⟨((5 : ℚ) : WithTop ℚ), some 0, 1⟩, .completed,
        [⟨false, some ⟨"USGAN", 0, 5⟩, some 0⟩], false, []⟩) ∧
    ((5 : ℚ) : WithTop ℚ) ≠ ((7 : ℚ) : WithTop ℚ) :=
  ⟨fun _ _ _ _ _ _ _ _ => rfl, by decide, by decide⟩

/-- C8: whenever the epoch loop of `_train_model` leaves `best_loss` at its
initial `+∞` sentinel, `_train_model` raises (the `ValueError` of the
post-loop check, or the `RuntimeError` of the except-branch when the loop was
torn down by an exception) and returns no model. -/
theorem best_loss_sentinel_is_fatal {σ : Type} (epochs : ℕ) (P : ℤ) (loss : ℕ → ℚ)
    (ms : ℕ → σ) (cls : String) (fault : ℕ → Bool) (vl : Option (ℕ → ℚ))
    (h : (runEpochsFrom P loss ms cls fault 0 epochs ⟨⊤, none, P⟩).st.best_loss = ⊤) :
    train_model epochs P loss ms cls fault vl = .valueError ∨
    train_model epochs P loss ms cls fault vl = .runtimeError := by
  simp only [train_model]
  split
  · by_cases hd : (runEpochsFrom P loss ms cls fault 0 epochs ⟨⊤, none, P⟩).st.best_model_dict.isNone
    · right
      rw [if_pos hd]
    · left
      rw [if_neg hd, if_pos h]
  · left
    rw [if_pos h]

/-- Witness for C8: a training run configured with zero epochs leaves the
sentinel untouched and `_train_model` raises `ValueError`. -/
theorem best_loss_sentinel_is_fatal_witness :
    train_model 0 1 (fun _ => (5 : ℚ)) (fun e : ℕ => e) "USGAN" (fun _ => false) none =
      .valueError ∨
    train_model 0 1 (fun _ => (5 : ℚ)) (fun e : ℕ => e) "USGAN" (fun _ => false) none =
      .runtimeError :=
  best_loss_sentinel_is_fatal 0 1 (fun _ => (5 : ℚ)) (fun e : ℕ => e) "USGAN"
    (fun _ => false) none (by decide)

/-- C7: with a saving path configured, strategy `None` writes no checkpoint;
`best` writes exactly one — the final `training_finished=True` call, whose
saved state is the best snapshot loaded into the model; `better` writes
exactly the calls issued during training (independent of training being
finished), one per improving epoch, each named `{class}_epoch{e}_loss{loss e}`
and holding that epoch's model state.  Without a saving path nothing is ever
written. -/
theorem checkpoint_strategy_policy {σ : Type} (epochs : ℕ) (P : ℤ) (loss : ℕ → ℚ)
    (ms : ℕ → σ) (cls : String) (fault : ℕ → Bool) (vl : Option (ℕ → ℚ))
    (fr : FitReport σ) (h : USGAN_fit epochs P loss ms cls fault vl = .ok fr) :
    writtenCheckpoints .noSave true fr.calls = [] ∧
    (∀ (strat : SavingStrategy) (calls : List (SaveCall σ)),
      writtenCheckpoints strat false calls = []) ∧
    writtenCheckpoints .best true fr.calls = [⟨true, none, fr.loadedModel⟩] ∧
    (∃ trainingSaves : List (SaveCall σ),
      fr.calls = trainingSaves ++ [⟨true, none, fr.loadedModel⟩] ∧
      writtenCheckpoints .better true fr.calls = trainingSaves ∧
      ∀ c ∈ trainingSaves, c.training_finished = false ∧
        ∃ e, c = ⟨false, some ⟨cls, e, loss e⟩, some (ms e)⟩) := by
  revert h
  unfold USGAN_fit
  cases htm : train_model epochs P loss ms cls fault vl with
  | runtimeError => intro h; exact absurd h (by simp)
  | valueError => intro h; exact absurd h (by simp)
  | ok rep =>
    intro h
    injection h with h'
    obtain ⟨hst, hexit, hsaves, hw⟩ :=
      train_model_ok_inv epochs P loss ms cls fault vl rep htm
    subst h'
    have hshape : ∀ c ∈ rep.saves,
        ∃ e, c = ⟨false, some ⟨cls, e, loss e⟩, some (ms e)⟩ := by
      intro c hc
      rw [hsaves] at hc
      exact runEpochsFrom_saves_shape P loss ms cls fault epochs 0 ⟨⊤, none, P⟩ c hc
    have hfalse : ∀ c ∈ rep.saves, c.training_finished = false := by
      intro c hc
      obtain ⟨e, rfl⟩ := hshape c hc
      rfl
    refine ⟨?_, ?_, ?_, rep.saves, rfl, ?_, fun c hc => ⟨hfalse c hc, hshape c hc⟩⟩
    · simp [writtenCheckpoints, auto_save_model_if_necessary]
    · intro strat calls
      simp [writtenCheckpoints, auto_save_model_if_necessary]
    · show List.filter _ (rep.saves ++ [_]) = _
      rw [List.filter_append]
      have h1 : rep.saves.filter
          (auto_save_model_if_necessary SavingStrategy.best true) = [] := by
        rw [List.filter_eq_nil_iff]
        intro c hc
        simp [auto_save_model_if_necessary, hfalse c hc]
      rw [h1]
      simp [auto_save_model_if_necessary]
    · show List.filter _ (rep.saves ++ [_]) = _
      rw [List.filter_append]
      have h1 : rep.saves.filter
          (auto_save_model_if_necessary SavingStrategy.better true) = rep.saves := by
        rw [List.filter_eq_self]
        intro c hc
        simp [auto_save_model_if_necessary, hfalse c hc]
      rw [h1]
      simp [auto_save_model_if_necessary]

/-- Witness for C7: a five-epoch run with losses 5, 4, 3, 3, 3 improves at
epochs 0, 1, 2; `best` writes exactly the one final record and `better`
exactly the three improving-epoch records. -/
theorem checkpoint_strategy_policy_witness :
    writtenCheckpoints .noSave true
      ([⟨false, some ⟨"USGAN", 0, loss543 0⟩, some 0⟩,
        ⟨false, some ⟨"USGAN", 1, loss543 1⟩, some 1⟩,
        ⟨false, some ⟨"USGAN", 2, loss543 2⟩, some 2⟩,
        ⟨true, none, some 2⟩] : List (SaveCall ℕ)) = [] ∧
    (∀ (strat : SavingStrategy) (calls : List (SaveCall ℕ)),
      writtenCheckpoints strat false calls = []) ∧
    writtenCheckpoints .best true
      [⟨false, some ⟨"USGAN", 0, loss543 0⟩, some 0⟩,
       ⟨false, some ⟨"USGAN", 1, loss543 1⟩, some 1⟩,
       ⟨false, some ⟨"USGAN", 2, loss543 2⟩, some 2⟩,
       ⟨true, none, some 2⟩] = [⟨true, none, some 2⟩] ∧
    (∃ trainingSaves : List (SaveCall ℕ),
      [⟨false, some ⟨"USGAN", 0, loss543 0⟩, some 0⟩,
       ⟨false, some ⟨"USGAN", 1, loss543 1⟩, some 1⟩,
       ⟨false, some ⟨"USGAN", 2, loss543 2⟩, some 2⟩,
       ⟨true, none, some 2⟩] = trainingSaves ++ [⟨true, none, some 2⟩] ∧
      writtenCheckpoints .better true
        [⟨false, some ⟨"USGAN", 0, loss543 0⟩, some 0⟩,
         ⟨false, some ⟨"USGAN", 1, loss543 1⟩, some 1⟩,
         ⟨false, some ⟨"USGAN", 2, loss543 2⟩, some 2⟩,
         ⟨true, none, some 2⟩] = trainingSaves ∧
      ∀ c ∈ trainingSaves, c.training_finished = false ∧
        ∃ e, c = ⟨false, some ⟨"USGAN", e, loss543 e⟩, some e⟩) :=
  checkpoint_strategy_policy 5 7 loss543 (fun e : ℕ => e) "USGAN" (fun _ => false) none
    ⟨some 2,
     [⟨false, some ⟨"USGAN", 0, loss543 0⟩, some 0⟩,
      ⟨false, some ⟨"USGAN", 1, loss543 1⟩, some 1⟩,
      ⟨false, some ⟨"USGAN", 2, loss543 2⟩, some 2⟩,
      ⟨true, none, some 2⟩], false, []⟩ (by decide)

/-- C10: the deprecated `impute` (USGAN, CSDI) and `classify` (BRITS) return
exactly the `"imputation"` / `"classification"` entry of `predict` on the same
input, and differ from `predict` only by logging the deprecation warning;
for CSDI, `impute` calls `predict` with `n_sampling_times` at its default 1. -/
theorem deprecated_methods_delegate_to_predict :
    ∀ {α β : Type} (net : α → List β) (net2 : ℕ → α → List β) (batches : List α),
      USGAN_impute net batches =
        (imputeDeprecationMsg :: (USGAN_predict net batches).1,
         (USGAN_predict net batches).2.lookup "imputation") ∧
      (USGAN_impute net batches).2 = some (batches.map net).flatten ∧
      CSDI_impute net2 batches =
        (imputeDeprecationMsg :: (CSDI_predict net2 batches 1).1,
         (CSDI_predict net2 batches 1).2.lookup "imputation") ∧
      (CSDI_impute net2 batches).2 = some (batches.map (net2 1)).flatten ∧
      BRITS_classify net batches =
        (classifyDeprecationMsg :: (BRITS_predict net batches).1,
         (BRITS_predict net batches).2.lookup "classification") ∧
      (BRITS_classify net batches).2 = some (batches.map net).flatten :=
  fun _ _ _ => ⟨rfl, rfl, rfl, rfl, rfl, rfl⟩
